import Mathlib

/-!
Verification of the QUIC server handshake core (CryptoSetup) and the server
packet dispatcher against the natural-language specification.

The definitions below are a shallow embedding of the Go source:

* `CryptoSetup`, `Seal`, `Open` (as `openStep`), `DiversificationNonce`,
  `isInchoateCHLO`, `handleInchoateCHLO`, `handleCHLO`, `handleMessage`,
  `HandleCryptoStream` from the handshake crypto-setup file;
* `handlePacket` and `closeCallback` from `server.go`.

Byte strings are `List Nat`; machine integers are `Nat` (no arithmetic that
overflows occurs in the translated code).  Collaborators that live outside
the provided sources (the STK source, signer, key derivation, key exchange,
connection-parameters manager, the crypto stream, the UDP socket and the
public-header parser) are supplied as function-valued environment records
(`Env`, `SrvEnv`); the translated code calls them exactly where the Go code
does.  Fallible Go calls returning `(T, error)` become `Except QuicErr T`,
except key derivation, whose result is assigned to a field before the error
check in the source, and is therefore kept as the Go-style pair
`Option Nat × Option QuicErr`.
-/

/-- Byte strings of the Go code (`[]byte`), as lists of naturals. -/
abbrev Bytes := List Nat

/-- Handshake tags are 32-bit little-endian words made of the 4 ASCII tag
bytes (spec section 3: tags are compared as 32-bit little-endian words). -/
abbrev Tag := Nat

/-- Tag value of CHLO, the little-endian word of the bytes C,H,L,O.  The tag
constants live in repository code outside `src/`; only their distinctness
matters to the claims, and the values used here are the little-endian ASCII
words the spec describes. -/
def TagCHLO : Tag := 0x4F4C4843

/-- Tag value of SNI. -/
def TagSNI : Tag := 0x494E53

/-- Tag value of SCID. -/
def TagSCID : Tag := 0x44494353

/-- Tag value of STK. -/
def TagSTK : Tag := 0x4B5453

/-- Tag value of SCFG. -/
def TagSCFG : Tag := 0x47464353

/-- Tag value of CERT. -/
def TagCERT : Tag := 0x54524543

/-- Tag value of PROF. -/
def TagPROF : Tag := 0x464F5250

/-- Tag value of REJ. -/
def TagREJ : Tag := 0x4A4552

/-- Tag value of SHLO. -/
def TagSHLO : Tag := 0x4F4C4853

/-- Tag value of PUBS. -/
def TagPUBS : Tag := 0x53425550

/-- Tag value of NONC. -/
def TagNONC : Tag := 0x434E4F4E

/-- Tag value of CCS. -/
def TagCCS : Tag := 0x534343

/-- Tag value of CCRT. -/
def TagCCRT : Tag := 0x54524343

/-- Tag value of SNO. -/
def TagSNO : Tag := 0x4F4E53

/-- Tag value of VER. -/
def TagVER : Tag := 0x524556

/-- The tag-to-value map a parsed handshake message yields
(`map[Tag][]byte` in Go), as an association list. -/
abbrev TagMap := List (Tag × Bytes)

/-- Two-valued Go map lookup `v, ok := m[t]`. -/
def tagLookup : TagMap → Tag → Option Bytes
  | [], _ => none
  | (t, v) :: rest, tag => if t = tag then some v else tagLookup rest tag

/-- One-valued Go map lookup `m[t]`, which yields the nil slice (here `[]`)
when the tag is absent. -/
def tagLookupD (m : TagMap) (t : Tag) : Bytes := (tagLookup m t).getD []

/-- Error codes of the `qerr` package used by the translated code.  The Go
calls attach human-readable detail strings; those are logging detail and are
not modelled. -/
inductive QuicErr where
  | invalidCryptoMessageType
  | cryptoMessageParameterNotFound
  | cryptoInvalidValueLength
  | packetTooLarge
  | invalidPacketHeader
  | endOfStream
  | other (code : Nat)
deriving DecidableEq

/-- A handshake message the server emits, kept structured:
`WriteHandshakeMessage` (repository code outside `src/`) serializes a
(message tag, tag map) pair, and the claims depend only on the tag and the
entries, not on the byte layout. -/
structure SerializedMsg where
  tag : Tag
  entries : TagMap
deriving DecidableEq

/-- Modelled from the spec: `protocol.ClientHelloMinimumSize` is not under
`src/`; section 6 fixes `CLIENT_HELLO_MIN_SIZE = 1024`. -/
def clientHelloMinimumSize : Nat := 1024

/-- The mutable state of `CryptoSetup` (handshake crypto-setup file,
struct `CryptoSetup`).  AEAD contexts are opaque handles (`Option Nat`,
`none` being Go's nil interface).  The `scfg`, stream, parameters-manager
and mutex fields are carried by the environment / step structure instead. -/
structure CryptoSetup where
  connID : Bytes
  ip : Bytes
  version : Nat
  nonce : Bytes
  diversificationNonce : Bytes
  secureAEAD : Option Nat
  forwardSecureAEAD : Option Nat
  receivedForwardSecurePacket : Bool
  receivedSecurePacket : Bool
deriving DecidableEq

/-- `NewCryptoSetup`: both nonces are 32 bytes read from the entropy source
(`io.ReadFull(rand.Reader, make([]byte, 32))`); entropy is injected as the
functions `e1`, `e2`. -/
def newCryptoSetup (connID ip : Bytes) (version : Nat) (e1 e2 : Nat → Nat) :
    CryptoSetup :=
  { connID := connID
    ip := ip
    version := version
    nonce := (List.range 32).map e1
    diversificationNonce := (List.range 32).map e2
    secureAEAD := none
    forwardSecureAEAD := none
    receivedForwardSecurePacket := false
    receivedSecurePacket := false }

/-- The three AEAD tiers the dispatcher can select. -/
inductive AEADTier where
  | nullTier
  | secure
  | forwardSecure
deriving DecidableEq

/-- `Seal` (crypto-setup file): the AEAD chosen for an outbound packet.
The call to the chosen AEAD's own `Seal` is abstracted to reporting the
chosen tier; the selection logic is translated verbatim. -/
def Seal (h : CryptoSetup) : AEADTier :=
  if h.receivedForwardSecurePacket then AEADTier.forwardSecure
  else if h.secureAEAD.isSome then AEADTier.secure
  else AEADTier.nullTier

/-- `DiversificationNonce` (crypto-setup file). -/
def DiversificationNonce (h : CryptoSetup) : Option Bytes :=
  if h.version < 33 then none
  else if h.receivedForwardSecurePacket || h.secureAEAD.isNone then none
  else some h.diversificationNonce

/-- The outcome of one `Open` call: a successful decryption under some tier,
or an error return. -/
inductive OpenResult where
  | success (t : AEADTier)
  | failure
deriving DecidableEq

/-- Whether an `Open` outcome is a reported success under tier `t`. -/
def isSuccessAt (r : OpenResult) (t : AEADTier) : Bool :=
  match r with
  | OpenResult.success u => u = t
  | OpenResult.failure => false

/-- The data of one `Open` call that the control flow branches on: whether
each AEAD's own `Open` would return a nil error on this
(packet number, associated data, ciphertext) triple.  Each field is
consulted only where the source consults the corresponding AEAD. -/
structure OpenOracle where
  fsOk : Bool
  secOk : Bool
  nullOk : Bool

/-- Final block of `Open`: `return (&crypto.NullAEAD{}).Open(...)`. -/
def openNullStep (h : CryptoSetup) (o : OpenOracle) : OpenResult × CryptoSetup :=
  (if o.nullOk then OpenResult.success AEADTier.nullTier else OpenResult.failure, h)

/-- Middle block of `Open`: the `h.secureAEAD != nil` block, falling through
to the NullAEAD attempt. -/
def openSecureStep (h : CryptoSetup) (o : OpenOracle) : OpenResult × CryptoSetup :=
  if h.secureAEAD.isSome then
    if o.secOk then
      (OpenResult.success AEADTier.secure, { h with receivedSecurePacket := true })
    else if h.receivedSecurePacket then (OpenResult.failure, h)
    else openNullStep h o
  else openNullStep h o

/-- `Open` (crypto-setup file): the `h.forwardSecureAEAD != nil` block,
falling through to `openSecureStep`. -/
def openStep (h : CryptoSetup) (o : OpenOracle) : OpenResult × CryptoSetup :=
  if h.forwardSecureAEAD.isSome then
    if o.fsOk then
      (OpenResult.success AEADTier.forwardSecure,
        { h with receivedForwardSecurePacket := true })
    else if h.receivedForwardSecurePacket then (OpenResult.failure, h)
    else openSecureStep h o
  else openSecureStep h o

/-- A sequence of `Open` calls, returning the outcomes in order. -/
def openRun (h : CryptoSetup) : List OpenOracle → List OpenResult
  | [] => []
  | o :: os =>
    (openStep h o).1 :: openRun (openStep h o).2 os

/-- An ephemeral key-exchange instance as returned by `h.keyExchange()`
(`crypto.KeyExchange`, outside `src/`): a shared-key computation and a
public value. -/
structure KexInstance where
  calculateSharedKey : Bytes → Except QuicErr Bytes
  publicKey : Bytes

/-- The collaborators of `CryptoSetup` that live outside `src/` (server
config, STK source, signer, key derivation, key exchange,
connection-parameters manager, the crypto stream's write result) injected as
functions.  The translated handlers call them exactly at the source's call
sites. -/
structure Env where
  scfgID : Bytes
  scfgGet : Bytes
  verifyToken : Bytes → Bytes → Except QuicErr Unit
  newToken : Bytes → Except QuicErr Bytes
  sign : Bytes → Option Bytes → Except QuicErr Bytes
  getCertsCompressed : Bytes → Bytes → Bytes → Except QuicErr Bytes
  getLeafCert : Bytes → Except QuicErr Bytes
  kexCalculateSharedKey : Bytes → Except QuicErr Bytes
  keyDerivation : Nat → Bool → Bytes → Bytes → Bytes → Bytes → Bytes → Bytes →
    Option Bytes → Option Nat × Option QuicErr
  keyExchange : Except QuicErr KexInstance
  setFromMap : TagMap → Except QuicErr Unit
  getSHLOMap : TagMap
  supportedVersionsAsTags : Bytes
  writeStream : SerializedMsg → Except QuicErr Unit

/-- Observable actions of the handshake handlers, in program order: a value
sent on the `aeadChanged` channel, a write of a handshake message to the
crypto stream, and a call of `scfg.Sign` with the arguments the source
passes. -/
inductive Event where
  | aeadChanged
  | writeStream (m : SerializedMsg)
  | signCall (sni : Bytes) (chlo : Option Bytes)
deriving DecidableEq

/-- `isInchoateCHLO` (crypto-setup file): no SCID, or an SCID different from
`scfg.ID`, yields `true`; otherwise the STK is verified and — exactly as in
the source — both the error branch and the success branch return `false`. -/
def isInchoateCHLO (env : Env) (h : CryptoSetup) (cryptoData : TagMap) : Bool :=
  match tagLookup cryptoData TagSCID with
  | none => true
  | some scid =>
    if env.scfgID ≠ scid then true
    else
      match env.verifyToken h.ip (tagLookupD cryptoData TagSTK) with
      | Except.error _ => false
      | Except.ok _ => false

/-- `handleInchoateCHLO` (crypto-setup file).  The returned triple is
(state, reply-or-error, events); the state is returned unchanged because the
source mutates no field of `h` here.  The Go local `chloOrNil` (`data` when
the version is above 30, nil otherwise) is written out at both of its two
uses. -/
def handleInchoateCHLO (env : Env) (h : CryptoSetup) (sni : Bytes)
    (data : Bytes) (cryptoData : TagMap) :
    CryptoSetup × Except QuicErr SerializedMsg × List Event :=
  if data.length < clientHelloMinimumSize then
    (h, Except.error QuicErr.cryptoInvalidValueLength, [])
  else
    match env.sign sni (if h.version > 30 then some data else none) with
    | Except.error e =>
      (h, Except.error e,
        [Event.signCall sni (if h.version > 30 then some data else none)])
    | Except.ok proof =>
      match env.getCertsCompressed sni (tagLookupD cryptoData TagCCS)
          (tagLookupD cryptoData TagCCRT) with
      | Except.error e =>
        (h, Except.error e,
          [Event.signCall sni (if h.version > 30 then some data else none)])
      | Except.ok certCompressed =>
        match env.newToken h.ip with
        | Except.error e =>
          (h, Except.error e,
            [Event.signCall sni (if h.version > 30 then some data else none)])
        | Except.ok token =>
          (h, Except.ok
            { tag := TagREJ
              entries := [(TagSCFG, env.scfgGet), (TagCERT, certCompressed),
                (TagPROF, proof), (TagSTK, token)] },
            [Event.signCall sni (if h.version > 30 then some data else none)])

/-- `handleCHLO` (crypto-setup file): the 0-RTT completion.  The two
`h.keyDerivation` calls assign their first result to the AEAD field before
the error check, as the Go multiple assignment does; on success the reply is
the SHLO message and the single event is the send on `aeadChanged`, which
the source performs before returning. -/
def handleCHLO (env : Env) (h : CryptoSetup) (sni : Bytes) (data : Bytes)
    (cryptoData : TagMap) :
    CryptoSetup × Except QuicErr SerializedMsg × List Event :=
  match env.kexCalculateSharedKey (tagLookupD cryptoData TagPUBS) with
  | Except.error e => (h, Except.error e, [])
  | Except.ok sharedSecret =>
    match env.getLeafCert sni with
    | Except.error e => (h, Except.error e, [])
    | Except.ok certUncompressed =>
      match env.keyDerivation h.version false sharedSecret
          (tagLookupD cryptoData TagNONC) h.connID data env.scfgGet
          certUncompressed (some h.diversificationNonce) with
      | (aead, some e) => ({ h with secureAEAD := aead }, Except.error e, [])
      | (aead, none) =>
        match env.keyExchange with
        | Except.error e => ({ h with secureAEAD := aead }, Except.error e, [])
        | Except.ok ephermalKex =>
          match ephermalKex.calculateSharedKey (tagLookupD cryptoData TagPUBS) with
          | Except.error e => ({ h with secureAEAD := aead }, Except.error e, [])
          | Except.ok ephermalSharedSecret =>
            match env.keyDerivation h.version true ephermalSharedSecret
                (tagLookupD cryptoData TagNONC ++ h.nonce) h.connID data
                env.scfgGet certUncompressed none with
            | (fsAead, some e) =>
              ({ h with secureAEAD := aead, forwardSecureAEAD := fsAead },
                Except.error e, [])
            | (fsAead, none) =>
              match env.setFromMap cryptoData with
              | Except.error e =>
                ({ h with secureAEAD := aead, forwardSecureAEAD := fsAead },
                  Except.error e, [])
              | Except.ok _ =>
                ({ h with secureAEAD := aead, forwardSecureAEAD := fsAead },
                  Except.ok (SerializedMsg.mk TagSHLO (env.getSHLOMap ++
                    [(TagPUBS, ephermalKex.publicKey), (TagSNO, h.nonce),
                      (TagVER, env.supportedVersionsAsTags)])),
                  [Event.aeadChanged])

/-- `handleMessage` (crypto-setup file): SNI presence and non-emptiness
checks, then the full-CHLO path (reply written, `done = true`) or the
inchoate path (REJ written, `done = false`).  The write event is recorded at
the `cryptoStream.Write` call site, after the events of the called
handler. -/
def handleMessage (env : Env) (h : CryptoSetup) (chloData : Bytes)
    (cryptoData : TagMap) : CryptoSetup × Except QuicErr Bool × List Event :=
  match tagLookup cryptoData TagSNI with
  | none => (h, Except.error QuicErr.cryptoMessageParameterNotFound, [])
  | some sniSlice =>
    if sniSlice = [] then
      (h, Except.error QuicErr.cryptoMessageParameterNotFound, [])
    else if ¬ isInchoateCHLO env h cryptoData then
      match handleCHLO env h sniSlice chloData cryptoData with
      | (h1, Except.error e, evs) => (h1, Except.error e, evs)
      | (h1, Except.ok reply, evs) =>
        match env.writeStream reply with
        | Except.error e => (h1, Except.error e, evs ++ [Event.writeStream reply])
        | Except.ok _ => (h1, Except.ok true, evs ++ [Event.writeStream reply])
    else
      match handleInchoateCHLO env h sniSlice chloData cryptoData with
      | (h1, Except.error e, evs) => (h1, Except.error e, evs)
      | (h1, Except.ok reply, evs) =>
        match env.writeStream reply with
        | Except.error e => (h1, Except.error e, evs ++ [Event.writeStream reply])
        | Except.ok _ => (h1, Except.ok false, evs ++ [Event.writeStream reply])

/-- One item the crypto-stream reader produces: the outcome of
`ParseHandshakeMessage` together with the cached raw message bytes
(`cachingReader.Get()`). -/
abbrev StreamItem := Except QuicErr (Tag × Bytes × TagMap)

/-- Decidable equality for `Except` results, used to evaluate the concrete
runs below. -/
instance exceptDecEq {e a : Type} [DecidableEq e] [DecidableEq a] :
    DecidableEq (Except e a) := fun x y =>
  match x, y with
  | Except.error u, Except.error v =>
    if h : u = v then Decidable.isTrue (by rw [h])
    else Decidable.isFalse (by intro hc; cases hc; exact h rfl)
  | Except.error _, Except.ok _ => Decidable.isFalse (by intro hc; cases hc)
  | Except.ok _, Except.error _ => Decidable.isFalse (by intro hc; cases hc)
  | Except.ok u, Except.ok v =>
    if h : u = v then Decidable.isTrue (by rw [h])
    else Decidable.isFalse (by intro hc; cases hc; exact h rfl)

/-- The resulting observations of a `HandleCryptoStream` run: the final
state, the returned error-or-nil, the messages that were passed to
`handleMessage` (raw bytes and tag map), and the events in order. -/
structure LoopResult where
  state : CryptoSetup
  result : Except QuicErr Unit
  handled : List (Bytes × TagMap)
  events : List Event
deriving DecidableEq

/-- `HandleCryptoStream` (crypto-setup file), over the list of parse
outcomes the stream yields: parse errors are returned, a tag other than
CHLO returns `InvalidCryptoMessageType`, otherwise `handleMessage` runs and
the loop stops on error or `done = true`.  An exhausted list stands for the
stream ending (a read that fails). -/
def HandleCryptoStream (env : Env) (h : CryptoSetup) :
    List StreamItem → LoopResult
  | [] => ⟨h, Except.error QuicErr.endOfStream, [], []⟩
  | item :: rest =>
    match item with
    | Except.error e => ⟨h, Except.error e, [], []⟩
    | Except.ok (messageTag, chloData, cryptoData) =>
      if messageTag ≠ TagCHLO then
        ⟨h, Except.error QuicErr.invalidCryptoMessageType, [], []⟩
      else
        match handleMessage env h chloData cryptoData with
        | (h1, Except.error e, evs) =>
          ⟨h1, Except.error e, [(chloData, cryptoData)], evs⟩
        | (h1, Except.ok true, evs) =>
          ⟨h1, Except.ok (), [(chloData, cryptoData)], evs⟩
        | (h1, Except.ok false, evs) =>
          let r := HandleCryptoStream env h1 rest
          ⟨r.state, r.result, (chloData, cryptoData) :: r.handled, evs ++ r.events⟩

/-- The state after `HandleCryptoStream` consumes all the given items with
every item a CHLO that `handleMessage` resolves to `(false, nil)` — i.e. the
run continues past them; `none` when the loop would stop earlier. -/
def runsPast (env : Env) (h : CryptoSetup) : List StreamItem → Option CryptoSetup
  | [] => some h
  | item :: rest =>
    match item with
    | Except.error _ => none
    | Except.ok (messageTag, chloData, cryptoData) =>
      if messageTag ≠ TagCHLO then none
      else
        match handleMessage env h chloData cryptoData with
        | (h1, Except.ok false, _) => runsPast env h1 rest
        | _ => none

/-- The payloads of the parse-successful items of a stream prefix. -/
def handledMsgs : List StreamItem → List (Bytes × TagMap)
  | [] => []
  | Except.error _ :: rest => handledMsgs rest
  | Except.ok (_, chloData, cryptoData) :: rest =>
    (chloData, cryptoData) :: handledMsgs rest

/-- A session's view of `CryptoSetup`: the crypto state plus whether the
`HandleCryptoStream` loop has returned (after which no further messages are
processed). -/
structure SessState where
  h : CryptoSetup
  loopDone : Bool
deriving DecidableEq

/-- One action of the session: an `Open` call by the packet processor, or
the crypto-stream loop consuming one handshake message.  `handleMessage`
runs atomically with respect to `Open` because every write to the shared
fields happens inside `handleCHLO`'s write-lock critical section while
`Open` holds the read lock. -/
inductive SessAction where
  | openCall (o : OpenOracle)
  | msg (item : StreamItem)

/-- One step of the session.  The `msg` case is one iteration of the
`HandleCryptoStream` loop: a parse error or a non-CHLO tag ends the loop
with an error, `handleMessage` with `(done, err)` ends it unless
`(false, nil)` is returned. -/
def sessStep (env : Env) (s : SessState) : SessAction → SessState
  | SessAction.openCall o => { s with h := (openStep s.h o).2 }
  | SessAction.msg item =>
    if s.loopDone then s
    else
      match item with
      | Except.error _ => { s with loopDone := true }
      | Except.ok (messageTag, chloData, cryptoData) =>
        if messageTag ≠ TagCHLO then { s with loopDone := true }
        else
          match handleMessage env s.h chloData cryptoData with
          | (h1, Except.ok false, _) => { h := h1, loopDone := false }
          | (h1, Except.ok true, _) => { h := h1, loopDone := true }
          | (h1, Except.error _, _) => { h := h1, loopDone := true }

/-- The session states reachable from a freshly constructed `CryptoSetup`
under any interleaving of `Open` calls and crypto-stream messages. -/
inductive Reachable (env : Env) : SessState → Prop
  | init (connID ip : Bytes) (version : Nat) (e1 e2 : Nat → Nat) :
      Reachable env ⟨newCryptoSetup connID ip version e1 e2, false⟩
  | step (s : SessState) (a : SessAction) : Reachable env s →
      Reachable env (sessStep env s a)

/-- The entry stored for a connection id in the server's session map:
absent, present-but-nil (a closed session, as `closeCallback` leaves it), or
a live handler. -/
inductive SessionEntry where
  | absent
  | closed
  | live (sid : Nat)
deriving DecidableEq

/-- The server's session map, `map[protocol.ConnectionID]packetHandler`. -/
abbrev Sessions := Nat → SessionEntry

/-- `closeCallback` (`server.go`): `s.sessions[id] = nil` — the entry stays
in the map with a nil handler. -/
def closeCallback (m : Sessions) (id : Nat) : Sessions :=
  fun x => if x = id then SessionEntry.closed else m x

/-- The public-header fields `handlePacket` reads. -/
structure PubHeader where
  connectionID : Nat
  versionFlag : Bool
  versionNumber : Nat
deriving DecidableEq

/-- The collaborators of `handlePacket` outside `src/`: the packet-size
limit, the public-header parser, the supported-version predicate, session
construction and the UDP write of a version-negotiation packet. -/
structure SrvEnv where
  maxPacketSize : Nat
  parsePublicHeader : Bytes → Except QuicErr PubHeader
  isSupportedVersion : Nat → Bool
  newSession : Nat → Nat → Except QuicErr Nat
  writeVersionNegotiation : Nat → Except QuicErr Unit

/-- Observable actions of `handlePacket`. -/
inductive SrvEvent where
  | sentVersionNegotiation (connID : Nat)
  | createdSession (connID : Nat) (sid : Nat)
  | deliveredPacket (connID : Nat) (sid : Nat)
deriving DecidableEq

/-- Whether a server event creates a session or delivers a packet to a
session handler. -/
def SrvEvent.isCreateOrDeliver : SrvEvent → Bool
  | SrvEvent.sentVersionNegotiation _ => false
  | SrvEvent.createdSession _ _ => true
  | SrvEvent.deliveredPacket _ _ => true

/-- `handlePacket` (`server.go`): size check, header parse, version
negotiation for version-flagged packets of unsupported versions, then the
session lookup — a missing entry creates and registers a session, a nil
entry ("Late packet for closed session") returns nil, a live one gets the
packet. -/
def handlePacket (env : SrvEnv) (sessions : Sessions) (packet : Bytes) :
    Except QuicErr Unit × Sessions × List SrvEvent :=
  if env.maxPacketSize < packet.length then
    (Except.error QuicErr.packetTooLarge, sessions, [])
  else
    match env.parsePublicHeader packet with
    | Except.error _ => (Except.error QuicErr.invalidPacketHeader, sessions, [])
    | Except.ok hdr =>
      if hdr.versionFlag && !(env.isSupportedVersion hdr.versionNumber) then
        match env.writeVersionNegotiation hdr.connectionID with
        | Except.error e =>
          (Except.error e, sessions, [SrvEvent.sentVersionNegotiation hdr.connectionID])
        | Except.ok _ =>
          (Except.ok (), sessions, [SrvEvent.sentVersionNegotiation hdr.connectionID])
      else
        match sessions hdr.connectionID with
        | SessionEntry.absent =>
          match env.newSession hdr.versionNumber hdr.connectionID with
          | Except.error e => (Except.error e, sessions, [])
          | Except.ok sid =>
            (Except.ok (),
              fun x => if x = hdr.connectionID then SessionEntry.live sid else sessions x,
              [SrvEvent.createdSession hdr.connectionID sid,
                SrvEvent.deliveredPacket hdr.connectionID sid])
        | SessionEntry.closed => (Except.ok (), sessions, [])
        | SessionEntry.live sid =>
          (Except.ok (), sessions, [SrvEvent.deliveredPacket hdr.connectionID sid])

/-- No element of a list of `Open` outcomes is a reported success under the
secure or the null tier. -/
def noLowerTierSuccess (rs : List OpenResult) : Bool :=
  rs.all fun r => !(isSuccessAt r AEADTier.secure) && !(isSuccessAt r AEADTier.nullTier)

/-- No element of a list of `Open` outcomes is a reported success under the
null tier. -/
def noNullSuccess (rs : List OpenResult) : Bool :=
  rs.all fun r => !(isSuccessAt r AEADTier.nullTier)

lemma openStep_preserves_aeads (h : CryptoSetup) (o : OpenOracle) :
    (openStep h o).2.forwardSecureAEAD = h.forwardSecureAEAD ∧
    (openStep h o).2.secureAEAD = h.secureAEAD := by
  unfold openStep openSecureStep openNullStep
  split_ifs <;> simp

lemma openStep_fs_flag_mono (h : CryptoSetup) (o : OpenOracle)
    (hflag : h.receivedForwardSecurePacket = true) :
    (openStep h o).2.receivedForwardSecurePacket = true := by
  unfold openStep openSecureStep openNullStep
  split_ifs <;> simp_all

lemma openStep_fs_success (h : CryptoSetup) (o : OpenOracle)
    (hsucc : (openStep h o).1 = OpenResult.success AEADTier.forwardSecure) :
    (openStep h o).2.receivedForwardSecurePacket = true ∧
    (openStep h o).2.forwardSecureAEAD.isSome = true := by
  unfold openStep openSecureStep openNullStep at *
  split_ifs at * <;> simp_all

lemma openStep_sec_success (h : CryptoSetup) (o : OpenOracle)
    (hsucc : (openStep h o).1 = OpenResult.success AEADTier.secure) :
    (openStep h o).2.receivedSecurePacket = true ∧
    (openStep h o).2.secureAEAD.isSome = true := by
  unfold openStep openSecureStep openNullStep at *
  split_ifs at * <;> simp_all

lemma openRun_fs_latched (os : List OpenOracle) :
    ∀ h : CryptoSetup, h.receivedForwardSecurePacket = true →
      h.forwardSecureAEAD.isSome = true →
      noLowerTierSuccess (openRun h os) = true := by
  induction os with
  | nil => intro h _ _; rfl
  | cons o os ih =>
    intro h hflag hfs
    have hfields := openStep_preserves_aeads h o
    have hmono := openStep_fs_flag_mono h o hflag
    have hhead : (openStep h o).1 = OpenResult.success AEADTier.forwardSecure ∨
        (openStep h o).1 = OpenResult.failure := by
      unfold openStep
      by_cases hok : o.fsOk <;> simp [hfs, hflag, hok]
    have htail := ih (openStep h o).2 hmono (by rw [hfields.1]; exact hfs)
    simp only [noLowerTierSuccess] at htail ⊢
    rw [show openRun h (o :: os) =
      (openStep h o).1 :: openRun (openStep h o).2 os from rfl]
    rw [List.all_cons, Bool.and_eq_true]
    refine ⟨?_, htail⟩
    rcases hhead with hh | hh <;> simp [hh, isSuccessAt]

lemma openSecureStep_sec_latched (h : CryptoSetup) (o : OpenOracle)
    (hflag : h.receivedSecurePacket = true) (hsec : h.secureAEAD.isSome = true) :
    ((openSecureStep h o).1 = OpenResult.success AEADTier.secure ∨
      (openSecureStep h o).1 = OpenResult.failure) ∧
    (openSecureStep h o).2.receivedSecurePacket = true ∧
    (openSecureStep h o).2.secureAEAD = h.secureAEAD := by
  unfold openSecureStep openNullStep
  split_ifs <;> simp_all

lemma openStep_sec_latched (h : CryptoSetup) (o : OpenOracle)
    (hflag : h.receivedSecurePacket = true) (hsec : h.secureAEAD.isSome = true) :
    ((openStep h o).1 ≠ OpenResult.success AEADTier.nullTier) ∧
    (openStep h o).2.receivedSecurePacket = true ∧
    (openStep h o).2.secureAEAD = h.secureAEAD := by
  obtain ⟨hs1, hs2, hs3⟩ := openSecureStep_sec_latched h o hflag hsec
  have hnull : (openSecureStep h o).1 ≠ OpenResult.success AEADTier.nullTier := by
    rcases hs1 with hh | hh <;> simp [hh]
  unfold openStep
  split_ifs with h1 h2 h3
  · exact ⟨by simp, hflag, rfl⟩
  · exact ⟨by simp, hflag, rfl⟩
  · exact ⟨hnull, hs2, hs3⟩
  · exact ⟨hnull, hs2, hs3⟩

lemma openRun_sec_latched (os : List OpenOracle) :
    ∀ h : CryptoSetup, h.receivedSecurePacket = true →
      h.secureAEAD.isSome = true →
      noNullSuccess (openRun h os) = true := by
  induction os with
  | nil => intro h _ _; rfl
  | cons o os ih =>
    intro h hflag hsec
    have hstep := openStep_sec_latched h o hflag hsec
    have htail := ih (openStep h o).2 hstep.2.1 (by rw [hstep.2.2]; exact hsec)
    simp only [noNullSuccess] at htail ⊢
    rw [show openRun h (o :: os) =
      (openStep h o).1 :: openRun (openStep h o).2 os from rfl]
    rw [List.all_cons, Bool.and_eq_true]
    refine ⟨?_, htail⟩
    cases hr : (openStep h o).1 with
    | success t =>
      cases t with
      | nullTier => exact absurd hr hstep.1
      | secure => simp [isSuccessAt]
      | forwardSecure => simp [isSuccessAt]
    | failure => simp [isSuccessAt]

/-- C3: after one `Open` call reports a success under forwardSecureAEAD, no
`Open` call of any later sequence reports a success under secureAEAD or
NullAEAD; after one `Open` call reports a success under secureAEAD, no later
`Open` call reports a success under NullAEAD. -/
theorem c3_monotonic_key_tier (h : CryptoSetup) (o : OpenOracle)
    (os : List OpenOracle) :
    ((openStep h o).1 = OpenResult.success AEADTier.forwardSecure →
      noLowerTierSuccess (openRun (openStep h o).2 os) = true) ∧
    ((openStep h o).1 = OpenResult.success AEADTier.secure →
      noNullSuccess (openRun (openStep h o).2 os) = true) := by
  constructor
  · intro hsucc
    have hst := openStep_fs_success h o hsucc
    exact openRun_fs_latched os (openStep h o).2 hst.1 hst.2
  · intro hsucc
    have hst := openStep_sec_success h o hsucc
    exact openRun_sec_latched os (openStep h o).2 hst.1 hst.2

/-- A concrete crypto-setup state: version 34, no AEAD installed, no latch
set. -/
def hT0 : CryptoSetup :=
  { connID := [], ip := [12], version := 34, nonce := [13],
    diversificationNonce := [14], secureAEAD := none, forwardSecureAEAD := none,
    receivedForwardSecurePacket := false, receivedSecurePacket := false }

/-- `hT0` with both AEADs installed. -/
def hTboth : CryptoSetup :=
  { hT0 with secureAEAD := some 2, forwardSecureAEAD := some 1 }

/-- `hT0` with only the secure AEAD installed. -/
def hTsec : CryptoSetup := { hT0 with secureAEAD := some 2 }

/-- Witness for C3: a concrete forward-secure success followed by a failing
call reports no lower-tier success, and a concrete secure success followed
by a failing call reports no null-tier success. -/
theorem c3_monotonic_key_tier_witness :
    noLowerTierSuccess (openRun (openStep hTboth (OpenOracle.mk true true true)).2
      [OpenOracle.mk false false true]) = true ∧
    noNullSuccess (openRun (openStep hTsec (OpenOracle.mk false true true)).2
      [OpenOracle.mk false false true]) = true :=
  ⟨(c3_monotonic_key_tier hTboth (OpenOracle.mk true true true)
      [OpenOracle.mk false false true]).1 (by decide),
    (c3_monotonic_key_tier hTsec (OpenOracle.mk false true true)
      [OpenOracle.mk false false true]).2 (by decide)⟩

/-- C4: `Seal` selects forwardSecureAEAD exactly when
`receivedForwardSecurePacket` is set; otherwise secureAEAD exactly when it
is non-nil; otherwise NullAEAD. -/
theorem c4_seal_selection (h : CryptoSetup) :
    (Seal h = AEADTier.forwardSecure ↔ h.receivedForwardSecurePacket = true) ∧
    (Seal h = AEADTier.secure ↔
      h.receivedForwardSecurePacket = false ∧ h.secureAEAD.isSome = true) ∧
    (Seal h = AEADTier.nullTier ↔
      h.receivedForwardSecurePacket = false ∧ h.secureAEAD.isSome = false) := by
  cases hf : h.receivedForwardSecurePacket <;> cases hs : h.secureAEAD <;>
    simp [Seal, hf, hs]

/-- Witness for C4 at a concrete state with a secure AEAD installed. -/
theorem c4_seal_selection_witness : Seal hTsec = AEADTier.secure :=
  (c4_seal_selection hTsec).2.1.mpr (by decide)

lemma handleInchoateCHLO_state (env : Env) (h : CryptoSetup) (sni : Bytes)
    (d : Bytes) (m : TagMap) : (handleInchoateCHLO env h sni d m).1 = h := by
  unfold handleInchoateCHLO
  repeat' split
  all_goals rfl

lemma handleCHLO_preserves_misc (env : Env) (h : CryptoSetup) (sni : Bytes)
    (d : Bytes) (m : TagMap) :
    (handleCHLO env h sni d m).1.diversificationNonce = h.diversificationNonce ∧
    (handleCHLO env h sni d m).1.receivedForwardSecurePacket =
      h.receivedForwardSecurePacket := by
  unfold handleCHLO
  repeat' split
  all_goals exact ⟨rfl, rfl⟩

lemma handleMessage_state_facts (env : Env) (h : CryptoSetup) (d : Bytes)
    (m : TagMap) :
    (handleMessage env h d m).1.diversificationNonce = h.diversificationNonce ∧
    (handleMessage env h d m).1.receivedForwardSecurePacket =
      h.receivedForwardSecurePacket ∧
    ((handleMessage env h d m).2.1 = Except.ok false →
      (handleMessage env h d m).1 = h) := by
  unfold handleMessage
  split
  · exact ⟨rfl, rfl, fun hc => absurd hc (by simp)⟩
  next sniSlice hlook =>
    by_cases hemp : sniSlice = []
    · rw [if_pos hemp]
      exact ⟨rfl, rfl, fun hc => absurd hc (by simp)⟩
    · rw [if_neg hemp]
      by_cases hinch : isInchoateCHLO env h m = true
      · rw [if_neg (fun hcon => hcon hinch)]
        rcases hres : handleInchoateCHLO env h sniSlice d m with ⟨h1, res, evs⟩
        have hst : h1 = h := by
          have hx := handleInchoateCHLO_state env h sniSlice d m
          rw [hres] at hx
          exact hx
        cases res with
        | error e => refine ⟨?_, ?_, ?_⟩ <;> simp [hst]
        | ok reply =>
          cases hw : env.writeStream reply with
          | error e => refine ⟨?_, ?_, ?_⟩ <;> simp [hw, hst]
          | ok u => refine ⟨?_, ?_, ?_⟩ <;> simp [hw, hst]
      · rw [if_pos hinch]
        rcases hres : handleCHLO env h sniSlice d m with ⟨h1, res, evs⟩
        have hfacts := handleCHLO_preserves_misc env h sniSlice d m
        rw [hres] at hfacts
        have hf1 : h1.diversificationNonce = h.diversificationNonce := hfacts.1
        have hf2 : h1.receivedForwardSecurePacket =
          h.receivedForwardSecurePacket := hfacts.2
        cases res with
        | error e => refine ⟨?_, ?_, ?_⟩ <;> simp [hf1, hf2]
        | ok reply =>
          cases hw : env.writeStream reply with
          | error e => refine ⟨?_, ?_, ?_⟩ <;> simp [hw, hf1, hf2]
          | ok u => refine ⟨?_, ?_, ?_⟩ <;> simp [hw, hf1, hf2]

lemma openStep_preserves_div (h : CryptoSetup) (o : OpenOracle) :
    (openStep h o).2.diversificationNonce = h.diversificationNonce := by
  unfold openStep openSecureStep openNullStep
  split_ifs <;> simp

lemma openStep_flag_source (h : CryptoSetup) (o : OpenOracle)
    (hflag : (openStep h o).2.receivedForwardSecurePacket = true) :
    h.receivedForwardSecurePacket = true ∨ h.forwardSecureAEAD.isSome = true := by
  unfold openStep openSecureStep openNullStep at hflag
  split_ifs at hflag <;> simp_all

/-- Inductive invariant of the session machine: an installed
forwardSecureAEAD means the crypto-stream loop has returned, and the
forward-secure latch implies an installed forwardSecureAEAD. -/
def SessInv (s : SessState) : Prop :=
  (s.h.forwardSecureAEAD.isSome = true → s.loopDone = true) ∧
  (s.h.receivedForwardSecurePacket = true → s.h.forwardSecureAEAD.isSome = true)

lemma reachable_inv (env : Env) (s : SessState) (hr : Reachable env s) :
    SessInv s ∧ s.h.diversificationNonce.length = 32 := by
  induction hr with
  | init connID ip version e1 e2 =>
    exact ⟨⟨fun hc => absurd hc (by simp [newCryptoSetup]),
      fun hc => absurd hc (by simp [newCryptoSetup])⟩, by simp [newCryptoSetup]⟩
  | step s a hs ih =>
    obtain ⟨⟨i1, i2⟩, i3⟩ := ih
    cases a with
    | openCall o =>
      have hpres := openStep_preserves_aeads s.h o
      refine ⟨⟨?_, ?_⟩, ?_⟩
      · intro hfs
        rw [show (sessStep env s (SessAction.openCall o)).h =
          (openStep s.h o).2 from rfl, hpres.1] at hfs
        exact i1 hfs
      · intro hflag
        rw [show (sessStep env s (SessAction.openCall o)).h =
          (openStep s.h o).2 from rfl] at hflag ⊢
        rw [hpres.1]
        rcases openStep_flag_source s.h o hflag with hl | hl
        · exact i2 hl
        · exact hl
      · rw [show (sessStep env s (SessAction.openCall o)).h =
          (openStep s.h o).2 from rfl, openStep_preserves_div]
        exact i3
    | msg item =>
      by_cases hdone : s.loopDone = true
      · have hstep : sessStep env s (SessAction.msg item) = s := by
          simp [sessStep, hdone]
        rw [hstep]
        exact ⟨⟨i1, i2⟩, i3⟩
      · have hfsnone : ¬ s.h.forwardSecureAEAD.isSome = true :=
          fun hc => hdone (i1 hc)
        have hflagfalse : ¬ s.h.receivedForwardSecurePacket = true :=
          fun hc => hfsnone (i2 hc)
        simp only [sessStep]
        rw [if_neg hdone]
        cases item with
        | error e => exact ⟨⟨fun _ => rfl, i2⟩, i3⟩
        | ok payload =>
          rcases payload with ⟨tg, chloData, cryptoData⟩
          dsimp only
          by_cases htag : tg ≠ TagCHLO
          · rw [if_pos htag]
            exact ⟨⟨fun _ => rfl, i2⟩, i3⟩
          · rw [if_neg htag]
            have hmf := handleMessage_state_facts env s.h chloData cryptoData
            rcases hres : handleMessage env s.h chloData cryptoData with ⟨h1, res, evs⟩
            rw [hres] at hmf
            have hm1 : h1.diversificationNonce = s.h.diversificationNonce := hmf.1
            have hm2 : h1.receivedForwardSecurePacket =
              s.h.receivedForwardSecurePacket := hmf.2.1
            cases res with
            | error e =>
              refine ⟨⟨fun _ => rfl, ?_⟩, ?_⟩
              · intro hflag
                rw [hm2] at hflag
                exact absurd hflag hflagfalse
              · rw [hm1]; exact i3
            | ok b =>
              cases b with
              | true =>
                refine ⟨⟨fun _ => rfl, ?_⟩, ?_⟩
                · intro hflag
                  rw [hm2] at hflag
                  exact absurd hflag hflagfalse
                · rw [hm1]; exact i3
              | false =>
                have hsame : h1 = s.h := hmf.2.2 rfl
                subst hsame
                exact ⟨⟨fun hc => absurd hc hfsnone, i2⟩, i3⟩

/-- C9: in every reachable session state, the forward-secure latch implies
an installed forwardSecureAEAD, so `Seal`'s forward-secure branch never
dereferences a nil AEAD. -/
theorem c9_latch_implies_fs_aead (env : Env) (s : SessState)
    (hr : Reachable env s)
    (hflag : s.h.receivedForwardSecurePacket = true) :
    s.h.forwardSecureAEAD.isSome = true :=
  (reachable_inv env s hr).1.2 hflag

/-- A concrete environment in which every collaborator succeeds; the server
config ID is `[1]`. -/
def envAllOk : Env :=
  { scfgID := [1],
    scfgGet := [2],
    verifyToken := fun _ _ => Except.ok (),
    newToken := fun _ => Except.ok [3],
    sign := fun _ _ => Except.ok [4],
    getCertsCompressed := fun _ _ _ => Except.ok [5],
    getLeafCert := fun _ => Except.ok [6],
    kexCalculateSharedKey := fun _ => Except.ok [7],
    keyDerivation := fun _ fs _ _ _ _ _ _ _ => (some (if fs then 11 else 10), none),
    keyExchange := Except.ok (KexInstance.mk (fun _ => Except.ok [8]) [9]),
    setFromMap := fun _ => Except.ok (),
    getSHLOMap := [],
    supportedVersionsAsTags := [],
    writeStream := fun _ => Except.ok () }

/-- A concrete CHLO tag map carrying a non-empty SNI, the SCID matching
`envAllOk.scfgID` and an STK value. -/
def cryptoDataFull : TagMap :=
  [(TagSNI, [101]), (TagSCID, [1]), (TagSTK, [2, 2])]

/-- A concrete initial session state (version 34). -/
def sess0 : SessState :=
  ⟨newCryptoSetup [] [12] 34 (fun _ => 0) (fun _ => 0), false⟩

/-- The concrete session step feeding the full CHLO of `cryptoDataFull`. -/
def stepChlo : SessAction :=
  SessAction.msg (Except.ok (TagCHLO, [], cryptoDataFull))

/-- The concrete session step performing an `Open` call that succeeds under
every installed AEAD. -/
def stepOpenOk : SessAction := SessAction.openCall (OpenOracle.mk true true true)

/-- Witness for C9: after the concrete full CHLO and a forward-secure
`Open` success, the reachable state has the latch set and a forward-secure
AEAD installed. -/
theorem c9_latch_implies_fs_aead_witness :
    (sessStep envAllOk (sessStep envAllOk sess0 stepChlo) stepOpenOk).h.forwardSecureAEAD.isSome = true :=
  c9_latch_implies_fs_aead envAllOk
    (sessStep envAllOk (sessStep envAllOk sess0 stepChlo) stepOpenOk)
    (Reachable.step _ stepOpenOk (Reachable.step _ stepChlo
      (Reachable.init [] [12] 34 (fun _ => 0) (fun _ => 0))))
    (by decide)

/-- C5: in every reachable session state, `DiversificationNonce` returns
the 32-byte diversification nonce exactly when the version is at least 33,
a secure AEAD is installed and the forward-secure latch is not set; in
every other state it returns nil. -/
theorem c5_diversification_nonce (env : Env) (s : SessState)
    (hr : Reachable env s) :
    DiversificationNonce s.h =
      (if 33 ≤ s.h.version ∧ s.h.secureAEAD.isSome = true ∧
          s.h.receivedForwardSecurePacket = false
        then some s.h.diversificationNonce else none) ∧
    s.h.diversificationNonce.length = 32 := by
  refine ⟨?_, (reachable_inv env s hr).2⟩
  unfold DiversificationNonce
  by_cases h1 : s.h.version < 33
  · rw [if_pos h1, if_neg (by omega)]
  · rw [if_neg h1]
    cases h2 : s.h.receivedForwardSecurePacket <;>
      cases h3 : s.h.secureAEAD <;> (simp [h2, h3]; try omega)

/-- Witness for C5: in the concrete state reached after the full CHLO of
`cryptoDataFull`, the secure AEAD is installed, version is 34 and the latch
is unset, so the 32-byte nonce is returned. -/
theorem c5_diversification_nonce_witness :
    DiversificationNonce (sessStep envAllOk sess0 stepChlo).h =
      (if 33 ≤ (sessStep envAllOk sess0 stepChlo).h.version ∧
          (sessStep envAllOk sess0 stepChlo).h.secureAEAD.isSome = true ∧
          (sessStep envAllOk sess0 stepChlo).h.receivedForwardSecurePacket = false
        then some (sessStep envAllOk sess0 stepChlo).h.diversificationNonce
        else none) ∧
    (sessStep envAllOk sess0 stepChlo).h.diversificationNonce.length = 32 :=
  c5_diversification_nonce envAllOk (sessStep envAllOk sess0 stepChlo)
    (Reachable.step _ stepChlo
      (Reachable.init [] [12] 34 (fun _ => 0) (fun _ => 0)))

/-- `envAllOk` with an STK source that rejects every token. -/
def envStkFail : Env :=
  { envAllOk with verifyToken := fun _ _ => Except.error (QuicErr.other 1) }

/-- Whether an event is a write of a REJ-tagged message. -/
def isRejWrite : Event → Bool
  | Event.writeStream msg => msg.tag == TagREJ
  | _ => false

/-- C1 (evaluation at the failing input): with the SCID matching
`scfg.ID` and the STK source rejecting the token, `isInchoateCHLO` returns
`false` — its STK-error branch returns the same value as its success
branch — so `handleMessage` performs the full 0-RTT handshake: it reports
`done = true`, installs a secure AEAD, and writes no REJ. -/
theorem c1_stk_failure_runs_full_handshake :
    isInchoateCHLO envStkFail hT0 cryptoDataFull = false ∧
    envStkFail.verifyToken hT0.ip (tagLookupD cryptoDataFull TagSTK) =
      Except.error (QuicErr.other 1) ∧
    (handleMessage envStkFail hT0 [] cryptoDataFull).2.1 = Except.ok true ∧
    (handleMessage envStkFail hT0 [] cryptoDataFull).1.secureAEAD.isSome = true ∧
    (handleMessage envStkFail hT0 [] cryptoDataFull).2.2.any isRejWrite = false := by
  decide

/-- C2 (counterexample): in a concrete successful full-CHLO handling, the
value is sent on `aeadChanged` first and the SHLO is written to the crypto
stream only afterwards, so the SHLO write does not precede the aead-changed
signal. -/
theorem c2_counterexample_signal_first :
    (handleMessage envAllOk hT0 [] cryptoDataFull).2.1 = Except.ok true ∧
    (handleMessage envAllOk hT0 [] cryptoDataFull).2.2 =
      [Event.aeadChanged,
        Event.writeStream (SerializedMsg.mk TagSHLO
          [(TagPUBS, [9]), (TagSNO, [13]), (TagVER, [])])] := by
  decide

/-- The event shape the amended C2 asserts of a successful full-CHLO
handling: the aead-changed signal followed by the SHLO write, in this
order. -/
def signalThenShloWrite (evs : List Event) : Bool :=
  match evs with
  | [Event.aeadChanged, Event.writeStream reply] => reply.tag == TagSHLO
  | _ => false

lemma handleCHLO_ok_shape (env : Env) (h : CryptoSetup) (sni d : Bytes)
    (m : TagMap) (h1 : CryptoSetup) (reply : SerializedMsg) (evs : List Event)
    (hres : handleCHLO env h sni d m = (h1, Except.ok reply, evs)) :
    evs = [Event.aeadChanged] ∧ reply.tag = TagSHLO := by
  unfold handleCHLO at hres
  repeat' split at hres
  all_goals simp only [Prod.mk.injEq] at hres
  all_goals
    try exact absurd hres.2.1 (fun hcon => Except.noConfusion hcon)
  obtain ⟨h2, hok, hevs⟩ := hres
  injection hok with hok
  exact ⟨hevs.symm, by rw [← hok]⟩

lemma handleMessage_ok_true_trace (env : Env) (h : CryptoSetup) (d : Bytes)
    (m : TagMap) :
    (handleMessage env h d m).2.1 = Except.ok true →
      signalThenShloWrite (handleMessage env h d m).2.2 = true := by
  unfold handleMessage
  split
  · intro hc; exact absurd hc (by simp)
  next sniSlice hlook =>
    by_cases hemp : sniSlice = []
    · rw [if_pos hemp]; intro hc; exact absurd hc (by simp)
    · rw [if_neg hemp]
      by_cases hinch : isInchoateCHLO env h m = true
      · rw [if_neg (fun hcon => hcon hinch)]
        rcases hres : handleInchoateCHLO env h sniSlice d m with ⟨h1, res, evs0⟩
        cases res with
        | error e => simp
        | ok reply =>
          cases hw : env.writeStream reply with
          | error e => simp [hw]
          | ok u => simp [hw]
      · rw [if_pos hinch]
        rcases hres : handleCHLO env h sniSlice d m with ⟨h1, res, evs0⟩
        cases res with
        | error e => simp
        | ok reply =>
          have hshape := handleCHLO_ok_shape env h sniSlice d m h1 reply evs0 hres
          cases hw : env.writeStream reply with
          | error e => simp [hw]
          | ok u => simp [hw, signalThenShloWrite, hshape.1, hshape.2]

/-- C2 (amended): for every full-CHLO handling step that completes
successfully (`handleMessage` returns `done = true`), the aead-changed
signal fires strictly before the complete SHLO message is written to the
crypto stream: the event trace is exactly the signal followed by the SHLO
write. -/
theorem c2_amended_signal_before_shlo (env : Env) (h : CryptoSetup)
    (chloData : Bytes) (cryptoData : TagMap) (hOut : CryptoSetup)
    (evs : List Event)
    (hrun : handleMessage env h chloData cryptoData = (hOut, Except.ok true, evs)) :
    signalThenShloWrite evs = true := by
  have h1 : (handleMessage env h chloData cryptoData).2.1 = Except.ok true := by
    rw [hrun]
  have h2 : (handleMessage env h chloData cryptoData).2.2 = evs := by
    rw [hrun]
  rw [← h2]
  exact handleMessage_ok_true_trace env h chloData cryptoData h1

/-- Witness for the amended C2 at the concrete successful full CHLO. -/
theorem c2_amended_signal_before_shlo_witness :
    signalThenShloWrite (handleMessage envAllOk hT0 [] cryptoDataFull).2.2 = true :=
  c2_amended_signal_before_shlo envAllOk hT0 [] cryptoDataFull
    (handleMessage envAllOk hT0 [] cryptoDataFull).1
    (handleMessage envAllOk hT0 [] cryptoDataFull).2.2
    (by decide)

/-- C6: an inchoate CHLO smaller than `CLIENT_HELLO_MIN_SIZE` (1024 bytes)
fails with the crypto-invalid-value-length error, while the full-CHLO path
enforces no size minimum: a concrete full CHLO of size 0 is handled
successfully to an SHLO. -/
theorem c6_chlo_minimum_size :
    (∀ (env : Env) (h : CryptoSetup) (sni data : Bytes) (m : TagMap),
      data.length < clientHelloMinimumSize →
      (handleInchoateCHLO env h sni data m).2.1 =
        Except.error QuicErr.cryptoInvalidValueLength) ∧
    clientHelloMinimumSize = 1024 ∧
    ([] : Bytes).length < clientHelloMinimumSize ∧
    (handleCHLO envAllOk hT0 [101] [] cryptoDataFull).2.1 =
      Except.ok (SerializedMsg.mk TagSHLO
        [(TagPUBS, [9]), (TagSNO, [13]), (TagVER, [])]) := by
  refine ⟨?_, rfl, by decide, by decide⟩
  intro env h sni data m hlen
  unfold handleInchoateCHLO
  rw [if_pos hlen]

/-- Witness for C6 at a concrete empty inchoate CHLO. -/
theorem c6_chlo_minimum_size_witness :
    (handleInchoateCHLO envAllOk hT0 [101] [] cryptoDataFull).2.1 =
      Except.error QuicErr.cryptoInvalidValueLength :=
  c6_chlo_minimum_size.1 envAllOk hT0 [101] [] cryptoDataFull (by decide)

/-- A CHLO body of exactly the minimum size. -/
def bigData : Bytes := List.replicate 1024 0

/-- C8: when an inchoate CHLO of at least the minimum size is handled, the
server-proof `Sign` call receives the CHLO bytes exactly when the version
is strictly greater than 30, and nil when the version is at most 30. -/
theorem c8_chlo_in_proof_signature (env : Env) (h : CryptoSetup)
    (sni data : Bytes) (m : TagMap)
    (hlen : clientHelloMinimumSize ≤ data.length) :
    (30 < h.version →
      (handleInchoateCHLO env h sni data m).2.2 =
        [Event.signCall sni (some data)]) ∧
    (h.version ≤ 30 →
      (handleInchoateCHLO env h sni data m).2.2 =
        [Event.signCall sni none]) := by
  have hbase : (handleInchoateCHLO env h sni data m).2.2 =
      [Event.signCall sni (if h.version > 30 then some data else none)] := by
    unfold handleInchoateCHLO
    rw [if_neg (by omega)]
    repeat' split
    all_goals rfl
  constructor
  · intro hv
    rw [hbase, if_pos hv]
  · intro hv
    rw [hbase, if_neg (by omega)]

set_option maxRecDepth 4096 in
/-- Witness for C8 at a minimum-size CHLO and version 34. -/
theorem c8_chlo_in_proof_signature_witness :
    (handleInchoateCHLO envAllOk hT0 [101] bigData cryptoDataFull).2.2 =
      [Event.signCall [101] (some bigData)] :=
  (c8_chlo_in_proof_signature envAllOk hT0 [101] bigData cryptoDataFull
    (by simp [bigData, clientHelloMinimumSize])).1 (by decide)

/-- C7: whenever the crypto-stream loop has consumed a prefix of CHLO
messages that each continued the loop, and the next parsed message carries
a tag other than CHLO, `HandleCryptoStream` returns the
invalid-crypto-message-type error and the non-CHLO message is never passed
to `handleMessage` (the handled list is exactly the prefix). -/
theorem c7_non_chlo_rejected (env : Env) (h h1 : CryptoSetup)
    (pre rest : List StreamItem) (tg : Tag) (d : Bytes) (m : TagMap)
    (hpre : runsPast env h pre = some h1) (htag : tg ≠ TagCHLO) :
    (HandleCryptoStream env h (pre ++ Except.ok (tg, d, m) :: rest)).result =
      Except.error QuicErr.invalidCryptoMessageType ∧
    (HandleCryptoStream env h (pre ++ Except.ok (tg, d, m) :: rest)).handled =
      handledMsgs pre := by
  induction pre generalizing h with
  | nil =>
    simp only [List.nil_append]
    unfold HandleCryptoStream
    dsimp only
    rw [if_pos htag]
    exact ⟨rfl, rfl⟩
  | cons item pre ih =>
    unfold runsPast at hpre
    cases item with
    | error e => exact absurd hpre (by simp)
    | ok payload =>
      rcases payload with ⟨t0, d0, m0⟩
      dsimp only at hpre
      by_cases ht0 : t0 ≠ TagCHLO
      · rw [if_pos ht0] at hpre
        exact absurd hpre (by simp)
      · rw [if_neg ht0] at hpre
        rcases hres : handleMessage env h d0 m0 with ⟨h0, res, evs0⟩
        rw [hres] at hpre
        cases res with
        | error e => simp at hpre
        | ok b =>
          cases b with
          | true => simp at hpre
          | false =>
            simp only [] at hpre
            have hrec := ih h0 (by simpa using hpre)
            simp only [List.cons_append]
            unfold HandleCryptoStream
            dsimp only
            rw [if_neg ht0, hres]
            dsimp only
            exact ⟨hrec.1, by
              show (d0, m0) :: (HandleCryptoStream env h0
                (pre ++ Except.ok (tg, d, m) :: rest)).handled =
                (d0, m0) :: handledMsgs pre
              rw [hrec.2]⟩

/-- Witness for C7: a first message tagged REJ is rejected with
invalid-crypto-message-type and nothing is handled. -/
theorem c7_non_chlo_rejected_witness :
    (HandleCryptoStream envAllOk hT0
      [Except.ok (TagREJ, [], cryptoDataFull)]).result =
      Except.error QuicErr.invalidCryptoMessageType ∧
    (HandleCryptoStream envAllOk hT0
      [Except.ok (TagREJ, [], cryptoDataFull)]).handled = handledMsgs [] :=
  c7_non_chlo_rejected envAllOk hT0 hT0 [] [] TagREJ [] cryptoDataFull rfl
    (by decide)

/-- No server event in the list creates a session or delivers a packet. -/
def noCreateOrDeliver (evs : List SrvEvent) : Bool :=
  evs.all fun e => !e.isCreateOrDeliver

/-- C10 (amended): after `closeCallback` nils the map entry of a connection
id, a later packet that parses (within the size limit) to that connection
id creates no session, is delivered to no handler, and leaves the session
map unchanged; `handlePacket` returns nil, except that a version-flagged
packet offering an unsupported version is answered with a
version-negotiation packet and `handlePacket` returns that UDP write's
result. -/
theorem c10_closed_session_drops_packets (env : SrvEnv) (sessions : Sessions)
    (id : Nat) (packet : Bytes) (hdr : PubHeader)
    (hsize : ¬ env.maxPacketSize < packet.length)
    (hparse : env.parsePublicHeader packet = Except.ok hdr)
    (hid : hdr.connectionID = id) :
    (handlePacket env (closeCallback sessions id) packet).1 =
      (if hdr.versionFlag && !(env.isSupportedVersion hdr.versionNumber)
        then env.writeVersionNegotiation hdr.connectionID else Except.ok ()) ∧
    (handlePacket env (closeCallback sessions id) packet).2.1 =
      closeCallback sessions id ∧
    noCreateOrDeliver (handlePacket env (closeCallback sessions id) packet).2.2 =
      true := by
  unfold handlePacket
  rw [if_neg hsize, hparse]
  dsimp only
  by_cases hvn : (hdr.versionFlag && !env.isSupportedVersion hdr.versionNumber) = true
  · rw [if_pos hvn]
    cases hw : env.writeVersionNegotiation hdr.connectionID with
    | error e => exact ⟨by rw [if_pos hvn], rfl, rfl⟩
    | ok u => exact ⟨by rw [if_pos hvn], rfl, rfl⟩
  · rw [if_neg hvn]
    have hlook : closeCallback sessions id hdr.connectionID =
        SessionEntry.closed := by
      unfold closeCallback
      rw [if_pos hid]
    rw [hlook]
    exact ⟨by rw [if_neg hvn], rfl, rfl⟩

/-- A concrete server environment whose parser yields a version-flagged
header with an unsupported version for connection id 7, and whose UDP write
of the version-negotiation packet fails. -/
def srvEnvVnFail : SrvEnv :=
  { maxPacketSize := 100,
    parsePublicHeader := fun _ => Except.ok (PubHeader.mk 7 true 99),
    isSupportedVersion := fun _ => false,
    newSession := fun _ _ => Except.ok 5,
    writeVersionNegotiation := fun _ => Except.error (QuicErr.other 2) }

/-- A concrete server environment whose parser yields a plain header (no
version flag) for connection id 7. -/
def srvEnvPlain : SrvEnv :=
  { maxPacketSize := 100,
    parsePublicHeader := fun _ => Except.ok (PubHeader.mk 7 false 33),
    isSupportedVersion := fun _ => true,
    newSession := fun _ _ => Except.ok 5,
    writeVersionNegotiation := fun _ => Except.ok () }

/-- The empty session map. -/
def sessionsEmpty : Sessions := fun _ => SessionEntry.absent

/-- C10 (counterexample to the claim as stated): after `closeCallback` for
connection id 7, a packet for id 7 that triggers version negotiation with a
failing UDP write makes `handlePacket` return an error, not nil. -/
theorem c10_counterexample_vn_write_error :
    srvEnvVnFail.parsePublicHeader [0] = Except.ok (PubHeader.mk 7 true 99) ∧
    (handlePacket srvEnvVnFail (closeCallback sessionsEmpty 7) [0]).1 =
      Except.error (QuicErr.other 2) := by
  exact ⟨rfl, rfl⟩

/-- Witness for the amended C10 at a plain packet for the closed id 7. -/
theorem c10_closed_session_drops_packets_witness :
    (handlePacket srvEnvPlain (closeCallback sessionsEmpty 7) [0]).1 =
      (if (PubHeader.mk 7 false 33).versionFlag &&
          !(srvEnvPlain.isSupportedVersion (PubHeader.mk 7 false 33).versionNumber)
        then srvEnvPlain.writeVersionNegotiation (PubHeader.mk 7 false 33).connectionID
        else Except.ok ()) ∧
    (handlePacket srvEnvPlain (closeCallback sessionsEmpty 7) [0]).2.1 =
      closeCallback sessionsEmpty 7 ∧
    noCreateOrDeliver
      (handlePacket srvEnvPlain (closeCallback sessionsEmpty 7) [0]).2.2 = true :=
  c10_closed_session_drops_packets srvEnvPlain sessionsEmpty 7 [0]
    (PubHeader.mk 7 false 33) (by decide) rfl rfl
